import Mathlib

/-!
Verification development for `fetch_plant_taxonomy.py` (GBIF taxonomy fetcher).

The script resolves plant names at an input taxonomic rank into lineages via
the GBIF `species/match` endpoint and optionally expands each resolved taxon
into descendants at requested lower ranks via the paginated
`species/{key}/children` endpoint, writing one flattened row per descent path.

Shallow embedding conventions:
* The remote service is modelled as a deterministic response environment:
  for name matching, a function from the attempt number to the response of
  the corresponding HTTP request; for children listing, a function from the
  requested page offset to the response of that page request
  (keyed further by parent key and rank at the pipeline level).
* Python `while` loops driven by retry counters or pagination are embedded
  structurally: retry loops recurse on the number of remaining attempts
  (`RETRY_LIMIT - attempt` in the source); the pagination loop takes an
  explicit fuel argument, because the source loop does not terminate on an
  adversarial service that keeps answering full pages.
* Observational instrumentation: `fetch_taxonomy_go` additionally returns
  the number of HTTP requests issued, and `fetch_children` additionally
  returns the list of page offsets requested, so that the spec's claims
  about retrying and pagination are statable.  The first components are
  exactly the values computed by the source.
* Python dicts keyed by rank names are embedded as association lists with
  insert-or-overwrite update (`dictSet`) and defaulted lookup (`dictGet`),
  matching dict insertion-order semantics.
* `time.sleep`, logging, tqdm progress and file I/O details are effects with
  no influence on the computed values and are not modelled.
-/

set_option autoImplicit false

namespace GbifFetch

/-! ## Rank model

The source fixes `taxonomic_ranks = ["kingdom", "phylum", "class", "order",
"family", "genus", "species"]` and compares ranks by list index. -/

/-- The seven taxonomic ranks, in the fixed source order.  `class'` stands for
the Python rank string "class" (a reserved word in Lean). -/
inductive Rank where
  | kingdom
  | phylum
  | class'
  | order
  | family
  | genus
  | species
deriving DecidableEq

/-- The ordered rank list `taxonomic_ranks` from the source. -/
def taxonomicRanks : List Rank :=
  [.kingdom, .phylum, .class', .order, .family, .genus, .species]

/-- Position of a rank in `taxonomic_ranks`; the embedding of
`taxonomic_ranks.index(level)`. -/
def Rank.index : Rank → Nat
  | .kingdom => 0
  | .phylum => 1
  | .class' => 2
  | .order => 3
  | .family => 4
  | .genus => 5
  | .species => 6

/-- The rank string used in URLs and rank-label comparisons. -/
def Rank.name : Rank → String
  | .kingdom => "kingdom"
  | .phylum => "phylum"
  | .class' => "class"
  | .order => "order"
  | .family => "family"
  | .genus => "genus"
  | .species => "species"

/-! ## Python dict embedding

Rows are Python dicts keyed by rank names; we embed them as association
lists over `Rank` with dict assignment and `dict.get` semantics. -/

/-- An output row: a Python dict from rank name to string value. -/
abbrev Row := List (Rank × String)

/-- Embedding of Python dict assignment `d[k] = v`: overwrite in place when
the key is present, else append a new entry. -/
def dictSet (d : Row) (k : Rank) (v : String) : Row :=
  if d.any (fun p => p.1 == k) then
    d.map (fun p => if p.1 == k then (k, v) else p)
  else
    d ++ [(k, v)]

/-- Embedding of Python `d.get(k, dflt)`. -/
def dictGet (d : Row) (k : Rank) (dflt : String) : String :=
  match d.find? (fun p => p.1 == k) with
  | some p => p.2
  | none => dflt

/-! ## Data model -/

/-- The JSON body of a successful `species/match` response, restricted to the
fields the source reads.  Absent JSON keys are `none` (Python `dict.get`
defaults apply at the use sites). -/
structure MatchData where
  matchType : Option String
  usageKey : Option Nat
  kingdom : Option String
  phylum : Option String
  class' : Option String
  order : Option String
  family : Option String
  genus : Option String
  species : Option String
  rank : Option String
deriving DecidableEq

/-- The taxonomy dict built by `fetch_taxonomy`: key, queried name, one value
per rank, and the raw rank label. -/
structure Taxon where
  key : Option Nat
  name : String
  kingdom : String
  phylum : String
  class' : String
  order : String
  family : String
  genus : String
  species : String
  rank : String
deriving DecidableEq

/-- Lookup of a rank field in a taxonomy dict (`taxonomy.get(level, "N/A")`;
the dict always carries all seven rank keys, so the default never fires). -/
def Taxon.rankValue (t : Taxon) : Rank → String
  | .kingdom => t.kingdom
  | .phylum => t.phylum
  | .class' => t.class'
  | .order => t.order
  | .family => t.family
  | .genus => t.genus
  | .species => t.species

/-- Outcome of one `requests.get` against the match endpoint, by `except`
clause of the source. -/
inductive ApiResponse where
  | success (data : MatchData)
  | httpError (status : Nat)
  | timeout
  | reqError
deriving DecidableEq

/-- Whether a response is the 2xx-with-JSON case. -/
def ApiResponse.isSuccess : ApiResponse → Bool
  | .success _ => true
  | _ => false

/-- Embedding of `fill_empty_taxonomy`: all fields "N/A", key `None`. -/
def fill_empty_taxonomy (plant_name : String) : Taxon :=
  { key := none
    name := plant_name
    kingdom := "N/A"
    phylum := "N/A"
    class' := "N/A"
    order := "N/A"
    family := "N/A"
    genus := "N/A"
    species := "N/A"
    rank := "N/A" }

/-- The taxonomy dict built on a successful match (`matchType != "NONE"`). -/
def taxonOfMatch (plant_name : String) (d : MatchData) : Taxon :=
  { key := d.usageKey
    name := plant_name
    kingdom := d.kingdom.getD "N/A"
    phylum := d.phylum.getD "N/A"
    class' := d.class'.getD "N/A"
    order := d.order.getD "N/A"
    family := d.family.getD "N/A"
    genus := d.genus.getD "N/A"
    species := d.species.getD "N/A"
    rank := d.rank.getD "N/A" }

/-! ## Lineage resolution (`fetch_taxonomy`)

The source loop is `while attempt < RETRY_LIMIT` with `RETRY_LIMIT = 5`;
`attempt` increments on every exception path.  We recurse structurally on
`remaining = RETRY_LIMIT - attempt`.  The environment gives the response of
the request issued at each attempt number.  The second component of the
result counts the HTTP requests issued. -/

/-- One-name resolution loop of `fetch_taxonomy`, from a given attempt
number with `remaining` attempts left. -/
def fetch_taxonomy_go (env : Nat → ApiResponse) (plant_name : String) :
    Nat → Nat → Taxon × Nat
  | _, 0 =>
    -- loop exit `attempt >= RETRY_LIMIT`: return empty taxonomy
    (fill_empty_taxonomy plant_name, 0)
  | attempt, remaining + 1 =>
    match env attempt with
    | .success d =>
      if d.matchType ≠ some "NONE" then
        (taxonOfMatch plant_name d, 1)
      else
        -- no match found: warn and return the empty sentinel, no retry
        (fill_empty_taxonomy plant_name, 1)
    | .httpError status =>
      if status == 429 then
        -- rate limited: extra sleep of request_delay * (attempt + 1), retry
        let r := fetch_taxonomy_go env plant_name (attempt + 1) remaining
        (r.1, r.2 + 1)
      else
        let r := fetch_taxonomy_go env plant_name (attempt + 1) remaining
        (r.1, r.2 + 1)
    | .timeout =>
      let r := fetch_taxonomy_go env plant_name (attempt + 1) remaining
      (r.1, r.2 + 1)
    | .reqError =>
      let r := fetch_taxonomy_go env plant_name (attempt + 1) remaining
      (r.1, r.2 + 1)

/-- `RETRY_LIMIT` from the source. -/
def RETRY_LIMIT : Nat := 5

/-- Embedding of `fetch_taxonomy(plant_name, request_delay)`. -/
def fetch_taxonomy (env : Nat → ApiResponse) (plant_name : String) : Taxon :=
  (fetch_taxonomy_go env plant_name 0 RETRY_LIMIT).1

/-! ## Children enumeration (`fetch_children`) -/

/-- One element of the `results` array of a children page, restricted to the
fields the source reads. -/
structure RawChild where
  key : Option Nat
  scientificName : Option String
  rank : Option String
  genus : Option String
  species : Option String
deriving DecidableEq

/-- The child dict built by `fetch_children` for a rank-matching child. -/
structure ChildTaxon where
  key : Option Nat
  name : String
  rank : String
  genus : String
  species : String
deriving DecidableEq

/-- Outcome of one `requests.get` against the children endpoint. -/
inductive PageResp where
  | success (results : List RawChild)
  | httpError (status : Nat)
  | timeout
  | reqError
deriving DecidableEq

/-- Whether a page response raised one of the caught exceptions. -/
def PageResp.isError : PageResp → Bool
  | .success _ => false
  | _ => true

/-- The per-page filter-and-build step of `fetch_children`: keep children
whose reported rank matches case-insensitively, building the child dict. -/
def filterPage (rank : Rank) (raw : List RawChild) : List ChildTaxon :=
  (raw.filter
      (fun child => (child.rank.getD "").toLower == rank.name.toLower)).map
    (fun child =>
      { key := child.key
        name := child.scientificName.getD "N/A"
        rank := child.rank.getD "N/A"
        genus := child.genus.getD "N/A"
        species := child.species.getD "N/A" })

/-- Pagination/retry loop of `fetch_children`.  State: accumulated `results`,
the trace of offsets requested so far (instrumentation), current `offset`
and `attempt`.  The page size `limit` is fixed at 1000.  `fuel` bounds the
number of loop iterations; every claim below supplies enough. -/
def fetch_children_loop (env : Nat → PageResp) (rank : Rank) :
    Nat → List ChildTaxon → List Nat → Nat → Nat → List ChildTaxon × List Nat
  | 0, results, trace, _, _ => (results, trace)
  | fuel + 1, results, trace, offset, attempt =>
    match env offset with
    | .success raw =>
      let results := results ++ filterPage rank raw
      if raw.length < 1000 then
        -- no more pages
        (results, trace ++ [offset])
      else if RETRY_LIMIT ≤ attempt then
        (results, trace ++ [offset])
      else
        fetch_children_loop env rank fuel results (trace ++ [offset])
          (offset + 1000) attempt
    | .httpError status =>
      if status == 429 then
        -- rate limited: extra sleep, attempt += 1
        if RETRY_LIMIT ≤ attempt + 1 then (results, trace ++ [offset])
        else fetch_children_loop env rank fuel results (trace ++ [offset])
          offset (attempt + 1)
      else
        if RETRY_LIMIT ≤ attempt + 1 then (results, trace ++ [offset])
        else fetch_children_loop env rank fuel results (trace ++ [offset])
          offset (attempt + 1)
    | .timeout =>
      if RETRY_LIMIT ≤ attempt + 1 then (results, trace ++ [offset])
      else fetch_children_loop env rank fuel results (trace ++ [offset])
        offset (attempt + 1)
    | .reqError =>
      if RETRY_LIMIT ≤ attempt + 1 then (results, trace ++ [offset])
      else fetch_children_loop env rank fuel results (trace ++ [offset])
        offset (attempt + 1)

/-- Embedding of `fetch_children(parent_key, rank, request_delay)`; the first
component is the returned list, the second the offsets requested. -/
def fetch_children (env : Nat → PageResp) (rank : Rank) (fuel : Nat) :
    List ChildTaxon × List Nat :=
  fetch_children_loop env rank fuel [] [] 0 0

/-! ## Per-name processing (`process_plant`)

The children environment is keyed by parent key and requested rank; each
`fetch_children` call consults the responses for that parent and rank. -/

/-- Children-service environment: parent key, requested rank, page offset. -/
abbrev ChildEnv := Option Nat → Rank → Nat → PageResp

/-- Embedding of the inner recursion `fetch_lower_levels(current_taxonomy,
current_data, current_rank_index)` of `process_plant`.  Only the `key` of
the current taxonomy dict is consulted by the recursion, so it is the
parameter.  `depth` is a structural termination fuel; every call below uses
`depth = 6`, which covers the source recursion (the index strictly increases
toward 6). -/
def fetch_lower_levels (cEnv : ChildEnv) (fuel : Nat) (lower_levels : List Rank) :
    Nat → Option Nat → Row → Nat → List Row
  | 0, _, current_data, current_rank_index =>
    -- depth exhausted: only the base case of the source recursion remains
    if 6 ≤ current_rank_index then [current_data] else []
  | depth + 1, current_key, current_data, current_rank_index =>
    if 6 ≤ current_rank_index then
      -- `current_rank_index >= len(taxonomic_ranks) - 1`
      [current_data]
    else
      let next_rank_index := current_rank_index + 1
      let next_rank := taxonomicRanks.getD next_rank_index Rank.species
      if next_rank ∈ lower_levels then
        let children := (fetch_children (cEnv current_key next_rank) next_rank fuel).1
        if children = [] then
          [current_data]
        else
          children.flatMap (fun child =>
            fetch_lower_levels cEnv fuel lower_levels depth child.key
              (dictSet current_data next_rank child.name) next_rank_index)
      else
        fetch_lower_levels cEnv fuel lower_levels depth current_key
          current_data next_rank_index

/-- Embedding of `process_plant(plant_name, input_level, levels,
request_delay)`: the produced rows and the success flag. -/
def process_plant (tEnv : Nat → ApiResponse) (cEnv : ChildEnv) (fuel : Nat)
    (plant_name : String) (input_level : Rank) (levels : List Rank) :
    List Row × Bool :=
  let taxonomy := fetch_taxonomy tEnv plant_name
  if taxonomy.key = none then
    let data := levels.foldl (fun d level => dictSet d level "") []
    let data := dictSet data input_level plant_name
    ([data], false)
  else
    let input_rank_index := input_level.index
    let data := dictSet [] input_level plant_name
    let lower_levels := levels.filter (fun level => input_rank_index < level.index)
    let higher_levels := levels.filter (fun level => level.index ≤ input_rank_index)
    let data := higher_levels.foldl
      (fun d level => dictSet d level (taxonomy.rankValue level)) data
    if lower_levels = [] then
      ([data], true)
    else
      (fetch_lower_levels cEnv fuel lower_levels 6 taxonomy.key data
        input_rank_index, true)

/-! ## Conflict validation (`check_conflict`) -/

/-- The fatal configuration failure (`sys.exit(1)` in `check_conflict`). -/
inductive ConfigError where
  | rankConflict
deriving DecidableEq

/-- Embedding of `check_conflict(input_level, levels)`: either the (possibly
reduced) output levels, or the fatal conflict.  `levels.remove` removes the
first occurrence, i.e. `List.erase`. -/
def check_conflict (input_level : Rank) (levels : List Rank) :
    Except ConfigError (List Rank) :=
  if input_level ∈ levels then
    if levels.length = 1 then
      .error .rankConflict
    else
      .ok (levels.erase input_level)
  else
    .ok levels

/-! ## Pipeline (`process_plant_file` and `process_and_write`) -/

/-- The shared mutable run state: the two counters and the rows appended to
the output file, in append order. -/
structure RunState where
  success_count : Nat
  failure_count : Nat
  rows : List (List String)
deriving DecidableEq

/-- The field list written for one row dict:
`[data.get(level, "") for level in [input_level] + levels]`. -/
def row_fields (input_level : Rank) (levels : List Rank) (data : Row) :
    List String :=
  (input_level :: levels).map (fun level => dictGet data level "")

/-- Match-service environment for a whole run, keyed by plant name. -/
abbrev MatchEnv := String → Nat → ApiResponse

/-- Embedding of the closure `process_and_write(plant_name)`: process one
name and apply the lock-protected counter update and row append to the run
state. -/
def process_and_write (tEnv : MatchEnv) (cEnv : ChildEnv) (fuel : Nat)
    (input_level : Rank) (levels : List Rank) (st : RunState)
    (plant_name : String) : RunState :=
  let r := process_plant (tEnv plant_name) cEnv fuel plant_name input_level levels
  { success_count := if r.2 then st.success_count + 1 else st.success_count
    failure_count := if r.2 then st.failure_count else st.failure_count + 1
    rows := st.rows ++ r.1.map (row_fields input_level levels) }

/-- Sequential mode of `process_plant_file`: names processed in input order
from fresh counters. -/
def process_plant_file_seq (tEnv : MatchEnv) (cEnv : ChildEnv) (fuel : Nat)
    (input_level : Rank) (levels : List Rank) (plant_names : List String) :
    RunState :=
  plant_names.foldl (process_and_write tEnv cEnv fuel input_level levels)
    ⟨0, 0, []⟩

/-- Pooled mode of `process_plant_file`.  The worker pool runs the same
per-name task concurrently; the lock serializes each task's counter update
and row append into one atomic critical section, so a pooled run is
observationally a sequential execution of the critical sections in the
workers' completion order, some permutation of the input names.  The
completion order is the parameter. -/
def process_plant_file_pooled (tEnv : MatchEnv) (cEnv : ChildEnv) (fuel : Nat)
    (input_level : Rank) (levels : List Rank) (completion_order : List String) :
    RunState :=
  completion_order.foldl (process_and_write tEnv cEnv fuel input_level levels)
    ⟨0, 0, []⟩

/-- Embedding of the `main` path relevant to validation: `check_conflict`
runs first and a conflict failure terminates the invocation before any task,
producing no rows; otherwise the pipeline runs on the reduced levels. -/
def run_main (tEnv : MatchEnv) (cEnv : ChildEnv) (fuel : Nat)
    (input_level : Rank) (levels : List Rank) (plant_names : List String) :
    Except ConfigError RunState :=
  match check_conflict input_level levels with
  | .error e => .error e
  | .ok levels' =>
    .ok (process_plant_file_seq tEnv cEnv fuel input_level levels' plant_names)

/-- Rows produced by an invocation outcome; a terminated run has none. -/
def rows_of : Except ConfigError RunState → List (List String)
  | .error _ => []
  | .ok st => st.rows

/-- Success flag of the per-name task. -/
def plant_success (tEnv : MatchEnv) (cEnv : ChildEnv) (fuel : Nat)
    (input_level : Rank) (levels : List Rank) (name : String) : Bool :=
  (process_plant (tEnv name) cEnv fuel name input_level levels).2

/-- Output rows of the per-name task, as written field lists. -/
def plant_rows (tEnv : MatchEnv) (cEnv : ChildEnv) (fuel : Nat)
    (input_level : Rank) (levels : List Rank) (name : String) :
    List (List String) :=
  (process_plant (tEnv name) cEnv fuel name input_level levels).1.map
    (row_fields input_level levels)

/-! ## Concrete service environments for evaluation -/

/-- A match response with a definitive no-match status. -/
def noMatchResp : Nat → ApiResponse := fun _ =>
  .success ⟨some "NONE", none, none, none, none, none, none, none, none, none⟩

/-- A match response resolving any name to a family-rank Rosaceae record. -/
def rosaceaeResp : Nat → ApiResponse := fun _ =>
  .success ⟨some "EXACT", some 5015, some "Plantae", some "Tracheophyta",
    some "Magnoliopsida", some "Rosales", some "Rosaceae", none, none,
    some "FAMILY"⟩

/-- A match service that always times out. -/
def timeoutResp : Nat → ApiResponse := fun _ => .timeout

/-- A children service that answers every page request with no results. -/
def emptyChildEnv : ChildEnv := fun _ _ _ => .success []

/-! ## Rank lemmas -/

/-- Sanity: `Rank.index` agrees with positional lookup in `taxonomicRanks`. -/
theorem rank_index_agrees (r : Rank) : taxonomicRanks.indexOf r = r.index := by
  cases r <;> decide

/-! ## Dict lemmas -/

theorem find?_map_overwrite (d : Row) (k : Rank) (v : String)
    (h : d.any (fun p => p.1 == k) = true) :
    (d.map (fun p => if p.1 == k then (k, v) else p)).find?
      (fun p => p.1 == k) = some (k, v) := by
  induction d with
  | nil => simp at h
  | cons p d ih =>
    simp only [List.map_cons]
    by_cases hp : p.1 = k
    · rw [if_pos (by simp [hp]), List.find?_cons_of_pos _ (by simp)]
    · have hp' : (p.1 == k) = false := by simp [hp]
      rw [if_neg (by simp [hp]), List.find?_cons_of_neg _ (by simp [hp])]
      apply ih
      simpa [hp'] using h

theorem find?_map_other (d : Row) (k k' : Rank) (v : String) (hk : k' ≠ k) :
    (d.map (fun p => if p.1 == k then (k, v) else p)).find?
      (fun p => p.1 == k') = d.find? (fun p => p.1 == k') := by
  induction d with
  | nil => simp
  | cons p d ih =>
    simp only [List.map_cons, List.find?_cons]
    by_cases hp : p.1 = k
    · have h0 : (p.1 == k) = true := by simp [hp]
      have h1 : (k == k') = false := by simp [Ne.symm hk]
      have h2 : (p.1 == k') = false := by simp [hp, Ne.symm hk]
      simp only [h0, if_true, List.find?_cons, h1, h2]
      exact ih
    · have h0 : (p.1 == k) = false := by simp [hp]
      simp only [h0, Bool.false_eq_true, if_false, List.find?_cons]
      cases hq : (p.1 == k') with
      | false => simpa only [hq] using ih
      | true => simp only [hq]

theorem dictGet_dictSet_self (d : Row) (k : Rank) (v dflt : String) :
    dictGet (dictSet d k v) k dflt = v := by
  unfold dictSet dictGet
  by_cases h : d.any (fun p => p.1 == k) = true
  · rw [if_pos h, find?_map_overwrite d k v h]
  · rw [if_neg h]
    have hall : d.find? (fun p => p.1 == k) = none := by
      rw [List.find?_eq_none]
      intro p hp
      by_contra hc
      exact h (List.any_eq_true.mpr ⟨p, hp, by simpa using hc⟩)
    rw [List.find?_append, hall]
    simp [List.find?_cons]

theorem dictGet_dictSet_other (d : Row) (k k' : Rank) (v dflt : String)
    (hk : k' ≠ k) :
    dictGet (dictSet d k v) k' dflt = dictGet d k' dflt := by
  unfold dictSet dictGet
  by_cases h : d.any (fun p => p.1 == k) = true
  · rw [if_pos h, find?_map_other d k k' v hk]
  · rw [if_neg h, List.find?_append]
    have hne : (k == k') = false := by simp [Ne.symm hk]
    cases hf : d.find? (fun p => p.1 == k') <;> simp [List.find?_cons, hne]

theorem dictGet_foldl_set (ls : List Rank) (f : Rank → String) (d0 : Row)
    (k : Rank) (dflt : String) :
    dictGet (ls.foldl (fun d l => dictSet d l (f l)) d0) k dflt =
      if k ∈ ls then f k else dictGet d0 k dflt := by
  induction ls generalizing d0 with
  | nil => simp
  | cons a ls ih =>
    simp only [List.foldl_cons, ih]
    by_cases hmem : k ∈ ls
    · simp [hmem, List.mem_cons]
    · by_cases hka : k = a
      · subst hka
        simp [hmem, dictGet_dictSet_self]
      · simp [hmem, hka, dictGet_dictSet_other d0 a k (f a) dflt hka]

/-! ## Resolution lemmas -/

theorem fetch_taxonomy_go_no_match (env : Nat → ApiResponse) (name : String)
    (attempt remaining : Nat) (d : MatchData)
    (h0 : env attempt = .success d) (hnm : d.matchType = some "NONE") :
    fetch_taxonomy_go env name attempt (remaining + 1) =
      (fill_empty_taxonomy name, 1) := by
  simp [fetch_taxonomy_go, h0, hnm]

theorem fetch_taxonomy_go_all_fail (env : Nat → ApiResponse) (name : String) :
    ∀ (remaining attempt : Nat),
      (∀ a, attempt ≤ a → a < attempt + remaining → (env a).isSuccess = false) →
      (fetch_taxonomy_go env name attempt remaining).1 =
        fill_empty_taxonomy name := by
  intro remaining
  induction remaining with
  | zero => intro attempt _; rfl
  | succ r ih =>
    intro attempt h
    have hA : (env attempt).isSuccess = false :=
      h attempt (Nat.le_refl _) (by omega)
    have hrec : (fetch_taxonomy_go env name (attempt + 1) r).1 =
        fill_empty_taxonomy name :=
      ih (attempt + 1) (fun a ha hb => h a (by omega) (by omega))
    cases hE : env attempt with
    | success d => rw [hE] at hA; simp [ApiResponse.isSuccess] at hA
    | httpError status =>
      simp only [fetch_taxonomy_go, hE]
      cases status == 429 <;> simpa using hrec
    | timeout =>
      simp only [fetch_taxonomy_go, hE]
      simpa using hrec
    | reqError =>
      simp only [fetch_taxonomy_go, hE]
      simpa using hrec

theorem fetch_taxonomy_all_fail (env : Nat → ApiResponse) (name : String)
    (h : ∀ a, a < RETRY_LIMIT → (env a).isSuccess = false) :
    fetch_taxonomy env name = fill_empty_taxonomy name :=
  fetch_taxonomy_go_all_fail env name RETRY_LIMIT 0
    (fun a _ hb => h a (by omega))

theorem fetch_taxonomy_of_no_match (env : Nat → ApiResponse) (name : String)
    (d : MatchData) (h0 : env 0 = .success d)
    (hnm : d.matchType = some "NONE") :
    fetch_taxonomy env name = fill_empty_taxonomy name := by
  unfold fetch_taxonomy RETRY_LIMIT
  rw [fetch_taxonomy_go_no_match env name 0 4 d h0 hnm]

/-! ## Degenerate-row lemmas -/

theorem process_plant_unresolved (tEnv : Nat → ApiResponse) (cEnv : ChildEnv)
    (fuel : Nat) (name : String) (input_level : Rank) (levels : List Rank)
    (h : (fetch_taxonomy tEnv name).key = none) :
    process_plant tEnv cEnv fuel name input_level levels =
      ([dictSet (levels.foldl (fun d l => dictSet d l "") []) input_level name],
        false) := by
  simp [process_plant, h]

theorem row_fields_degenerate (input_level : Rank) (levels : List Rank)
    (name : String) :
    row_fields input_level levels
      (dictSet (levels.foldl (fun d l => dictSet d l "") []) input_level name) =
      name :: levels.map (fun l => if l = input_level then name else "") := by
  unfold row_fields
  rw [List.map_cons, dictGet_dictSet_self]
  congr 1
  have hfun : (fun l => dictGet
      (dictSet (levels.foldl (fun d l => dictSet d l "") []) input_level name)
        l "") =
      (fun l => if l = input_level then name else "") := by
    funext l
    by_cases hl : l = input_level
    · subst hl; simp [dictGet_dictSet_self]
    · rw [dictGet_dictSet_other _ _ _ _ _ hl, if_neg hl,
        dictGet_foldl_set levels (fun _ => "") [] l ""]
      by_cases hm : l ∈ levels <;> simp [hm, dictGet]
  rw [hfun]

theorem process_and_write_unresolved_state (tEnv : MatchEnv) (cEnv : ChildEnv)
    (fuel : Nat) (input_level : Rank) (levels : List Rank) (st : RunState)
    (name : String)
    (h : (fetch_taxonomy (tEnv name) name).key = none) :
    (process_and_write tEnv cEnv fuel input_level levels st name).rows =
      st.rows ++
        [name :: levels.map (fun l => if l = input_level then name else "")] ∧
    (process_and_write tEnv cEnv fuel input_level levels st name).failure_count =
      st.failure_count + 1 ∧
    (process_and_write tEnv cEnv fuel input_level levels st name).success_count =
      st.success_count := by
  have hp := process_plant_unresolved (tEnv name) cEnv fuel name input_level
    levels h
  refine ⟨?_, ?_, ?_⟩ <;>
    simp [process_and_write, hp, row_fields_degenerate]

/-! ## Pipeline fold characterization -/

theorem foldl_process_and_write (tEnv : MatchEnv) (cEnv : ChildEnv)
    (fuel : Nat) (input_level : Rank) (levels : List Rank) :
    ∀ (names : List String) (st : RunState),
      names.foldl (process_and_write tEnv cEnv fuel input_level levels) st =
        { success_count := st.success_count +
            names.countP (plant_success tEnv cEnv fuel input_level levels)
          failure_count := st.failure_count +
            names.countP
              (fun n => !plant_success tEnv cEnv fuel input_level levels n)
          rows := st.rows ++
            names.flatMap (plant_rows tEnv cEnv fuel input_level levels) } := by
  intro names
  induction names with
  | nil => intro st; simp
  | cons a names ih =>
    intro st
    rw [List.foldl_cons, ih]
    simp only [List.countP_cons, List.flatMap_cons, process_and_write,
      plant_success, plant_rows]
    simp only [RunState.mk.injEq]
    refine ⟨?_, ?_, ?_⟩
    · by_cases hs :
        (process_plant (tEnv a) cEnv fuel a input_level levels).2 = true <;>
        simp [hs] <;> omega
    · by_cases hs :
        (process_plant (tEnv a) cEnv fuel a input_level levels).2 = true <;>
        simp [hs] <;> omega
    · simp [List.append_assoc]

/-! ## Children-enumeration lemmas -/

theorem fetch_children_loop_step_full (env : Nat → PageResp) (rank : Rank)
    (f : Nat) (results : List ChildTaxon) (trace : List Nat)
    (offset attempt : Nat) (raw : List RawChild)
    (hE : env offset = .success raw) (hfull : ¬ raw.length < 1000)
    (hatt : attempt < RETRY_LIMIT) :
    fetch_children_loop env rank (f + 1) results trace offset attempt =
      fetch_children_loop env rank f (results ++ filterPage rank raw)
        (trace ++ [offset]) (offset + 1000) attempt := by
  simp only [fetch_children_loop, hE]
  rw [if_neg hfull, if_neg (by omega)]

theorem fetch_children_loop_step_short (env : Nat → PageResp) (rank : Rank)
    (f : Nat) (results : List ChildTaxon) (trace : List Nat)
    (offset attempt : Nat) (raw : List RawChild)
    (hE : env offset = .success raw) (hshort : raw.length < 1000) :
    fetch_children_loop env rank (f + 1) results trace offset attempt =
      (results ++ filterPage rank raw, trace ++ [offset]) := by
  simp only [fetch_children_loop, hE]
  rw [if_pos hshort]

theorem fetch_children_loop_step_err (env : Nat → PageResp) (rank : Rank)
    (f : Nat) (results : List ChildTaxon) (trace : List Nat)
    (offset attempt : Nat)
    (hE : (env offset).isError = true) (hatt : attempt + 1 < RETRY_LIMIT) :
    fetch_children_loop env rank (f + 1) results trace offset attempt =
      fetch_children_loop env rank f results (trace ++ [offset]) offset
        (attempt + 1) := by
  cases hE' : env offset with
  | success raw => rw [hE'] at hE; simp [PageResp.isError] at hE
  | httpError status =>
    simp only [fetch_children_loop, hE']
    cases status == 429 <;> simp only [Bool.false_eq_true, if_false, if_true] <;>
      rw [if_neg (by omega)]
  | timeout =>
    simp only [fetch_children_loop, hE']
    rw [if_neg (by omega)]
  | reqError =>
    simp only [fetch_children_loop, hE']
    rw [if_neg (by omega)]

theorem fetch_children_loop_step_err_last (env : Nat → PageResp) (rank : Rank)
    (f : Nat) (results : List ChildTaxon) (trace : List Nat)
    (offset attempt : Nat)
    (hE : (env offset).isError = true) (hatt : RETRY_LIMIT ≤ attempt + 1) :
    fetch_children_loop env rank (f + 1) results trace offset attempt =
      (results, trace ++ [offset]) := by
  cases hE' : env offset with
  | success raw => rw [hE'] at hE; simp [PageResp.isError] at hE
  | httpError status =>
    simp only [fetch_children_loop, hE']
    cases status == 429 <;> simp only [Bool.false_eq_true, if_false, if_true] <;>
      rw [if_pos hatt]
  | timeout =>
    simp only [fetch_children_loop, hE']
    rw [if_pos hatt]
  | reqError =>
    simp only [fetch_children_loop, hE']
    rw [if_pos hatt]

theorem fetch_children_loop_all_err (env : Nat → PageResp) (rank : Rank)
    (offset : Nat) (hE : (env offset).isError = true) :
    ∀ (n attempt : Nat) (results : List ChildTaxon) (trace : List Nat)
      (fuel : Nat), attempt + n = RETRY_LIMIT → n ≤ fuel →
      (fetch_children_loop env rank fuel results trace offset attempt).1 =
        results := by
  intro n
  induction n with
  | zero =>
    intro attempt results trace fuel hR _
    cases fuel with
    | zero => rfl
    | succ f =>
      rw [fetch_children_loop_step_err_last env rank f results trace offset
        attempt hE (by omega)]
  | succ n ih =>
    intro attempt results trace fuel hR hf
    obtain ⟨f, rfl⟩ : ∃ f, fuel = f + 1 := ⟨fuel - 1, by omega⟩
    by_cases hlt : attempt + 1 < RETRY_LIMIT
    · rw [fetch_children_loop_step_err env rank f results trace offset attempt
        hE hlt]
      exact ih (attempt + 1) results (trace ++ [offset]) f (by omega) (by omega)
    · rw [fetch_children_loop_step_err_last env rank f results trace offset
        attempt hE (by omega)]

theorem fetch_children_loop_full_pages (env : Nat → PageResp) (rank : Rank) :
    ∀ (k : Nat) (pages : Nat → List RawChild) (offset : Nat)
      (results : List ChildTaxon) (trace : List Nat) (attempt fuel : Nat),
      attempt < RETRY_LIMIT →
      (∀ j, j < k → env (offset + 1000 * j) = .success (pages j)) →
      (∀ j, j < k → ¬ (pages j).length < 1000) →
      k ≤ fuel →
      fetch_children_loop env rank fuel results trace offset attempt =
        fetch_children_loop env rank (fuel - k)
          (results ++ (List.range k).flatMap (fun j => filterPage rank (pages j)))
          (trace ++ (List.range k).map (fun j => offset + 1000 * j))
          (offset + 1000 * k) attempt := by
  intro k
  induction k with
  | zero => intro pages offset results trace attempt fuel _ _ _ _; simp
  | succ k ih =>
    intro pages offset results trace attempt fuel hatt hsucc hfull hfuel
    obtain ⟨f, rfl⟩ : ∃ f, fuel = f + 1 := ⟨fuel - 1, by omega⟩
    have h0 : env offset = .success (pages 0) := by
      have := hsucc 0 (by omega)
      simpa using this
    have h0full : ¬ (pages 0).length < 1000 := hfull 0 (by omega)
    rw [fetch_children_loop_step_full env rank f results trace offset attempt
      (pages 0) h0 h0full hatt]
    rw [ih (fun j => pages (j + 1)) (offset + 1000)
      (results ++ filterPage rank (pages 0)) (trace ++ [offset]) attempt f hatt
      (fun j hj => by
        rw [show offset + 1000 + 1000 * j = offset + 1000 * (j + 1) by ring]
        exact hsucc (j + 1) (by omega))
      (fun j hj => hfull (j + 1) (by omega)) (by omega)]
    have e1 : f - k = f + 1 - (k + 1) := by omega
    have e2 : results ++ filterPage rank (pages 0) ++
        (List.range k).flatMap (fun j => filterPage rank (pages (j + 1))) =
        results ++
          (List.range (k + 1)).flatMap (fun j => filterPage rank (pages j)) := by
      simp [List.range_succ_eq_map, List.flatMap_cons, List.flatMap_map,
        List.append_assoc]
    have e3 : trace ++ [offset] ++
        (List.range k).map (fun j => offset + 1000 + 1000 * j) =
        trace ++ (List.range (k + 1)).map (fun j => offset + 1000 * j) := by
      have hf3 : (fun j => offset + 1000 + 1000 * j) =
          (fun j => offset + 1000 * (j + 1)) := funext fun j => by ring
      simp [hf3, List.range_succ_eq_map, List.map_map, List.append_assoc,
        Function.comp, Nat.succ_eq_add_one]
    have e4 : offset + 1000 + 1000 * k = offset + 1000 * (k + 1) := by ring
    rw [e1, e2, e3, e4]

/-! ## Descent lemmas -/

theorem fetch_lower_levels_dictGet (cEnv : ChildEnv) (fuel : Nat)
    (lower_levels : List Rank) (r : Rank) (hr : r ∉ lower_levels)
    (dflt : String) :
    ∀ (depth : Nat) (key : Option Nat) (data : Row) (idx : Nat),
      ∀ row ∈ fetch_lower_levels cEnv fuel lower_levels depth key data idx,
        dictGet row r dflt = dictGet data r dflt := by
  intro depth
  induction depth with
  | zero =>
    intro key data idx row hrow
    unfold fetch_lower_levels at hrow
    by_cases hidx : 6 ≤ idx
    · rw [if_pos hidx] at hrow
      simp only [List.mem_singleton] at hrow
      subst hrow; rfl
    · rw [if_neg hidx] at hrow
      simp at hrow
  | succ depth ih =>
    intro key data idx row hrow
    unfold fetch_lower_levels at hrow
    by_cases hidx : 6 ≤ idx
    · rw [if_pos hidx] at hrow
      simp only [List.mem_singleton] at hrow
      subst hrow; rfl
    · rw [if_neg hidx] at hrow
      simp only [] at hrow
      by_cases hmem : taxonomicRanks.getD (idx + 1) Rank.species ∈ lower_levels
      · rw [if_pos hmem] at hrow
        by_cases hch :
            (fetch_children (cEnv key (taxonomicRanks.getD (idx + 1) Rank.species))
              (taxonomicRanks.getD (idx + 1) Rank.species) fuel).1 = []
        · rw [if_pos hch] at hrow
          simp only [List.mem_singleton] at hrow
          subst hrow; rfl
        · rw [if_neg hch] at hrow
          rw [List.mem_flatMap] at hrow
          obtain ⟨child, _, hrow⟩ := hrow
          have hne : r ≠ taxonomicRanks.getD (idx + 1) Rank.species :=
            fun h => hr (by rw [h]; exact hmem)
          rw [ih child.key _ (idx + 1) row hrow,
            dictGet_dictSet_other _ _ _ _ _ hne]
      · rw [if_neg hmem] at hrow
        exact ih key data (idx + 1) row hrow

theorem process_plant_input_field (tEnv : Nat → ApiResponse)
    (cEnv : ChildEnv) (fuel : Nat) (name : String) (input_level : Rank)
    (levels : List Rank) (h : input_level ∉ levels) :
    ∀ row ∈ (process_plant tEnv cEnv fuel name input_level levels).1,
      dictGet row input_level "" = name := by
  intro row hrow
  simp only [process_plant] at hrow
  by_cases hkey : (fetch_taxonomy tEnv name).key = none
  · rw [if_pos hkey] at hrow
    simp only [List.mem_singleton] at hrow
    subst hrow
    exact dictGet_dictSet_self _ _ _ _
  · rw [if_neg hkey] at hrow
    have hseed : dictGet
        ((levels.filter (fun level => level.index ≤ input_level.index)).foldl
          (fun d level =>
            dictSet d level ((fetch_taxonomy tEnv name).rankValue level))
          (dictSet [] input_level name))
        input_level "" = name := by
      rw [dictGet_foldl_set]
      rw [if_neg (fun hc => h (List.mem_of_mem_filter hc))]
      exact dictGet_dictSet_self _ _ _ _
    by_cases hl :
        levels.filter (fun level => input_level.index < level.index) = []
    · rw [if_pos hl] at hrow
      simp only [List.mem_singleton] at hrow
      subst hrow
      exact hseed
    · rw [if_neg hl] at hrow
      have hnl : input_level ∉
          levels.filter (fun level => input_level.index < level.index) :=
        fun hc => h (List.mem_of_mem_filter hc)
      rw [fetch_lower_levels_dictGet cEnv fuel _ input_level hnl "" 6
        (fetch_taxonomy tEnv name).key _ input_level.index row hrow]
      exact hseed

/-! ## Claims -/

/-- C1: for an input name whose resolution returns the unresolved
(empty-sentinel) taxon, processing the name appends exactly one row, whose
input-rank field equals the original queried name and whose every other
requested output-rank field is the empty string; the failure counter
increments by exactly 1 and the success counter is unchanged. -/
theorem claim_C1_unresolved_single_row (tEnv : MatchEnv) (cEnv : ChildEnv)
    (fuel : Nat) (input_level : Rank) (levels : List Rank) (st : RunState)
    (name : String)
    (h : (fetch_taxonomy (tEnv name) name).key = none) :
    (process_and_write tEnv cEnv fuel input_level levels st name).rows =
      st.rows ++
        [name :: levels.map (fun l => if l = input_level then name else "")] ∧
    (process_and_write tEnv cEnv fuel input_level levels st name).failure_count =
      st.failure_count + 1 ∧
    (process_and_write tEnv cEnv fuel input_level levels st name).success_count =
      st.success_count :=
  process_and_write_unresolved_state tEnv cEnv fuel input_level levels st name h

/-- Witness for C1: a no-match service, input rank family, requested output
rank genus, starting from fresh counters. -/
theorem claim_C1_witness :
    (fetch_taxonomy ((fun _ => noMatchResp) "Rosa") "Rosa").key = none ∧
    ((process_and_write (fun _ => noMatchResp) emptyChildEnv 10 Rank.family
        [Rank.genus] ⟨0, 0, []⟩ "Rosa").rows =
      [] ++ ["Rosa" :: [Rank.genus].map
        (fun l => if l = Rank.family then "Rosa" else "")] ∧
    (process_and_write (fun _ => noMatchResp) emptyChildEnv 10 Rank.family
        [Rank.genus] ⟨0, 0, []⟩ "Rosa").failure_count = 0 + 1 ∧
    (process_and_write (fun _ => noMatchResp) emptyChildEnv 10 Rank.family
        [Rank.genus] ⟨0, 0, []⟩ "Rosa").success_count = 0) :=
  ⟨by decide, claim_C1_unresolved_single_row (fun _ => noMatchResp)
    emptyChildEnv 10 Rank.family [Rank.genus] ⟨0, 0, []⟩ "Rosa" (by decide)⟩

/-- C2: when the input rank occurs among the requested output ranks, the
validator removes exactly that one rank if more than one is requested,
leaving the remaining ranks unchanged in order, and when the input rank is
the sole requested rank the invocation fails with a configuration error
before any task runs and produces zero rows. -/
theorem claim_C2_conflict_validation (input_level : Rank) (levels : List Rank)
    (hmem : input_level ∈ levels) (hnd : levels.Nodup) :
    (1 < levels.length →
      check_conflict input_level levels = .ok (levels.erase input_level) ∧
      (levels.erase input_level).Sublist levels ∧
      (levels.erase input_level).length + 1 = levels.length ∧
      input_level ∉ levels.erase input_level) ∧
    (levels.length = 1 →
      ∀ (tEnv : MatchEnv) (cEnv : ChildEnv) (fuel : Nat)
        (names : List String),
        run_main tEnv cEnv fuel input_level levels names =
          .error .rankConflict ∧
        rows_of (run_main tEnv cEnv fuel input_level levels names) = []) := by
  constructor
  · intro hlen
    refine ⟨?_, List.erase_sublist _ _, ?_, ?_⟩
    · unfold check_conflict
      rw [if_pos hmem, if_neg (by omega)]
    · rw [List.length_erase_of_mem hmem]
      omega
    · intro hc
      exact (hnd.mem_erase_iff.mp hc).1 rfl
  · intro hlen tEnv cEnv fuel names
    have hc : check_conflict input_level levels = .error .rankConflict := by
      unfold check_conflict
      rw [if_pos hmem, if_pos hlen]
    exact ⟨by simp [run_main, hc], by simp [run_main, hc, rows_of]⟩

/-- Witness for C2 at input rank genus with requested ranks
genus and species. -/
theorem claim_C2_witness :
    (Rank.genus ∈ [Rank.genus, Rank.species] ∧
      ([Rank.genus, Rank.species] : List Rank).Nodup) ∧
    ((1 < ([Rank.genus, Rank.species] : List Rank).length →
      check_conflict Rank.genus [Rank.genus, Rank.species] =
        .ok ([Rank.genus, Rank.species].erase Rank.genus) ∧
      ([Rank.genus, Rank.species].erase Rank.genus).Sublist
        [Rank.genus, Rank.species] ∧
      ([Rank.genus, Rank.species].erase Rank.genus).length + 1 =
        ([Rank.genus, Rank.species] : List Rank).length ∧
      Rank.genus ∉ [Rank.genus, Rank.species].erase Rank.genus) ∧
    (([Rank.genus, Rank.species] : List Rank).length = 1 →
      ∀ (tEnv : MatchEnv) (cEnv : ChildEnv) (fuel : Nat)
        (names : List String),
        run_main tEnv cEnv fuel Rank.genus [Rank.genus, Rank.species] names =
          .error .rankConflict ∧
        rows_of (run_main tEnv cEnv fuel Rank.genus
          [Rank.genus, Rank.species] names) = [])) :=
  ⟨⟨by decide, by decide⟩,
    claim_C2_conflict_validation Rank.genus [Rank.genus, Rank.species]
      (by decide) (by decide)⟩

/-- C9: on a definitive no-match response the resolver returns the
empty-sentinel taxon (absent identifier, every rank field "N/A") after
exactly one request, i.e. without performing any retry attempt. -/
theorem claim_C9_no_match_no_retry (env : Nat → ApiResponse) (name : String)
    (d : MatchData) (h0 : env 0 = .success d)
    (hnm : d.matchType = some "NONE") :
    fetch_taxonomy_go env name 0 RETRY_LIMIT = (fill_empty_taxonomy name, 1) ∧
    fetch_taxonomy env name = fill_empty_taxonomy name ∧
    (fill_empty_taxonomy name).key = none ∧
    ∀ r : Rank, (fill_empty_taxonomy name).rankValue r = "N/A" := by
  refine ⟨?_, fetch_taxonomy_of_no_match env name d h0 hnm, rfl, ?_⟩
  · unfold RETRY_LIMIT
    exact fetch_taxonomy_go_no_match env name 0 4 d h0 hnm
  · intro r
    cases r <;> rfl

/-- Witness for C9 at the concrete no-match environment. -/
theorem claim_C9_witness :
    noMatchResp 0 = .success
      ⟨some "NONE", none, none, none, none, none, none, none, none, none⟩ ∧
    (⟨some "NONE", none, none, none, none, none, none, none, none, none⟩ :
      MatchData).matchType = some "NONE" ∧
    (fetch_taxonomy_go noMatchResp "Rosa" 0 RETRY_LIMIT =
        (fill_empty_taxonomy "Rosa", 1) ∧
      fetch_taxonomy noMatchResp "Rosa" = fill_empty_taxonomy "Rosa" ∧
      (fill_empty_taxonomy "Rosa").key = none ∧
      ∀ r : Rank, (fill_empty_taxonomy "Rosa").rankValue r = "N/A") :=
  ⟨rfl, rfl, claim_C9_no_match_no_retry noMatchResp "Rosa" _ rfl rfl⟩

/-- C10: a name whose resolution exhausts all retry attempts on transient
failures is downstream indistinguishable from a definitive no-match: both
yield the empty-sentinel taxon, the same single degenerate row, and a
failure-counter increment with the success counter unchanged. -/
theorem claim_C10_exhausted_like_no_match (envF envN : Nat → ApiResponse)
    (d : MatchData) (cEnv : ChildEnv) (fuel : Nat) (name : String)
    (input_level : Rank) (levels : List Rank) (st : RunState)
    (hf : ∀ a, a < RETRY_LIMIT → (envF a).isSuccess = false)
    (h0 : envN 0 = .success d) (hnm : d.matchType = some "NONE") :
    fetch_taxonomy envF name = fill_empty_taxonomy name ∧
    fetch_taxonomy envF name = fetch_taxonomy envN name ∧
    process_and_write (fun _ => envF) cEnv fuel input_level levels st name =
      process_and_write (fun _ => envN) cEnv fuel input_level levels st name ∧
    (process_and_write (fun _ => envF) cEnv fuel input_level levels st
        name).rows =
      st.rows ++
        [name :: levels.map (fun l => if l = input_level then name else "")] ∧
    (process_and_write (fun _ => envF) cEnv fuel input_level levels st
        name).failure_count = st.failure_count + 1 ∧
    (process_and_write (fun _ => envF) cEnv fuel input_level levels st
        name).success_count = st.success_count := by
  have e1 : fetch_taxonomy envF name = fill_empty_taxonomy name :=
    fetch_taxonomy_all_fail envF name hf
  have e2 : fetch_taxonomy envN name = fill_empty_taxonomy name :=
    fetch_taxonomy_of_no_match envN name d h0 hnm
  have hkeyF : (fetch_taxonomy ((fun _ => envF) name) name).key = none := by
    show (fetch_taxonomy envF name).key = none
    rw [e1]; rfl
  have hkeyN : (fetch_taxonomy ((fun _ => envN) name) name).key = none := by
    show (fetch_taxonomy envN name).key = none
    rw [e2]; rfl
  obtain ⟨hr, hfc, hsc⟩ := process_and_write_unresolved_state (fun _ => envF)
    cEnv fuel input_level levels st name hkeyF
  refine ⟨e1, e1.trans e2.symm, ?_, hr, hfc, hsc⟩
  have hppF := process_plant_unresolved envF cEnv fuel name input_level
    levels hkeyF
  have hppN := process_plant_unresolved envN cEnv fuel name input_level
    levels hkeyN
  simp [process_and_write, hppF, hppN]

/-- Witness for C10: an always-timeout service against the concrete no-match
service. -/
theorem claim_C10_witness :
    (∀ a, a < RETRY_LIMIT → (timeoutResp a).isSuccess = false) ∧
    noMatchResp 0 = .success
      ⟨some "NONE", none, none, none, none, none, none, none, none, none⟩ ∧
    (fetch_taxonomy timeoutResp "Quercus" = fill_empty_taxonomy "Quercus" ∧
      fetch_taxonomy timeoutResp "Quercus" =
        fetch_taxonomy noMatchResp "Quercus" ∧
      process_and_write (fun _ => timeoutResp) emptyChildEnv 10 Rank.family
          [Rank.genus] ⟨0, 0, []⟩ "Quercus" =
        process_and_write (fun _ => noMatchResp) emptyChildEnv 10 Rank.family
          [Rank.genus] ⟨0, 0, []⟩ "Quercus" ∧
      (process_and_write (fun _ => timeoutResp) emptyChildEnv 10 Rank.family
          [Rank.genus] ⟨0, 0, []⟩ "Quercus").rows =
        [] ++ ["Quercus" :: [Rank.genus].map
          (fun l => if l = Rank.family then "Quercus" else "")] ∧
      (process_and_write (fun _ => timeoutResp) emptyChildEnv 10 Rank.family
          [Rank.genus] ⟨0, 0, []⟩ "Quercus").failure_count = 0 + 1 ∧
      (process_and_write (fun _ => timeoutResp) emptyChildEnv 10 Rank.family
          [Rank.genus] ⟨0, 0, []⟩ "Quercus").success_count = 0) :=
  ⟨fun _ _ => rfl, rfl,
    claim_C10_exhausted_like_no_match timeoutResp noMatchResp _ emptyChildEnv
      10 "Quercus" Rank.family [Rank.genus] ⟨0, 0, []⟩ (fun _ _ => rfl) rfl
      rfl⟩

/-- C5: when a requested rank step of the descent yields zero children for
the current taxon, exactly one leaf row is emitted for that branch, equal to
the row accumulated up to that point, with no rank below it filled. -/
theorem claim_C5_empty_children_leaf (cEnv : ChildEnv) (fuel : Nat)
    (lower_levels : List Rank) (depth : Nat) (key : Option Nat) (data : Row)
    (idx : Nat) (hidx : ¬ 6 ≤ idx)
    (hreq : taxonomicRanks.getD (idx + 1) Rank.species ∈ lower_levels)
    (hnone : (fetch_children
        (cEnv key (taxonomicRanks.getD (idx + 1) Rank.species))
        (taxonomicRanks.getD (idx + 1) Rank.species) fuel).1 = []) :
    fetch_lower_levels cEnv fuel lower_levels (depth + 1) key data idx =
      [data] := by
  unfold fetch_lower_levels
  rw [if_neg hidx]
  simp only []
  rw [if_pos hreq, if_pos hnone]

/-- Witness for C5: at input index 4 (family) with genus requested and a
service with no children anywhere, the branch terminates with the
accumulated row. -/
theorem claim_C5_witness :
    (¬ 6 ≤ 4) ∧
    taxonomicRanks.getD (4 + 1) Rank.species ∈ [Rank.genus] ∧
    (fetch_children
        (emptyChildEnv (some 5015) (taxonomicRanks.getD (4 + 1) Rank.species))
        (taxonomicRanks.getD (4 + 1) Rank.species) 10).1 = [] ∧
    fetch_lower_levels emptyChildEnv 10 [Rank.genus] (5 + 1) (some 5015)
        [(Rank.family, "Rosaceae")] 4 = [[(Rank.family, "Rosaceae")]] :=
  ⟨by decide, by decide, by decide,
    claim_C5_empty_children_leaf emptyChildEnv 10 [Rank.genus] 5 (some 5015)
      [(Rank.family, "Rosaceae")] 4 (by decide) (by decide) (by decide)⟩

/-- C6: for a resolved taxon with no requested output rank strictly below
the input rank, expansion yields exactly one row, successfully, and the
value of every requested rank (all at or above the input rank) is copied
verbatim from the resolved lineage. -/
theorem claim_C6_no_lower_single_row (tEnv : Nat → ApiResponse)
    (cEnv : ChildEnv) (fuel : Nat) (name : String) (input_level : Rank)
    (levels : List Rank)
    (hkey : ¬ (fetch_taxonomy tEnv name).key = none)
    (hlev : ∀ l ∈ levels, l.index ≤ input_level.index) :
    ∃ data : Row,
      process_plant tEnv cEnv fuel name input_level levels = ([data], true) ∧
      ∀ l ∈ levels, dictGet data l "" =
        (fetch_taxonomy tEnv name).rankValue l := by
  simp only [process_plant]
  rw [if_neg hkey]
  have hl : levels.filter (fun level => input_level.index < level.index) =
      [] :=
    List.filter_eq_nil_iff.mpr
      (fun l hml => by simpa using Nat.not_lt.mpr (hlev l hml))
  have hh : levels.filter (fun level => level.index ≤ input_level.index) =
      levels :=
    List.filter_eq_self.mpr (fun l hml => by simpa using hlev l hml)
  rw [hl, hh, if_pos rfl]
  refine ⟨_, rfl, ?_⟩
  intro l hml
  rw [dictGet_foldl_set, if_pos hml]

/-- Witness for C6: a resolved family-rank record with kingdom and family
requested. -/
theorem claim_C6_witness :
    (¬ (fetch_taxonomy rosaceaeResp "Rosaceae").key = none) ∧
    (∀ l ∈ [Rank.kingdom, Rank.family], l.index ≤ Rank.family.index) ∧
    (∃ data : Row,
      process_plant rosaceaeResp emptyChildEnv 10 "Rosaceae" Rank.family
          [Rank.kingdom, Rank.family] = ([data], true) ∧
      ∀ l ∈ [Rank.kingdom, Rank.family], dictGet data l "" =
        (fetch_taxonomy rosaceaeResp "Rosaceae").rankValue l) :=
  ⟨by decide, by decide,
    claim_C6_no_lower_single_row rosaceaeResp emptyChildEnv 10 "Rosaceae"
      Rank.family [Rank.kingdom, Rank.family] (by decide) (by decide)⟩

/-- C7: every row produced for an input name, resolved or unresolved, full
or short-circuited descent, carries the input-rank entry equal to the
original queried name, and its written form has exactly one field per
requested output rank plus the leading input-rank field, which equals the
name. -/
theorem claim_C7_row_invariant (tEnv : Nat → ApiResponse) (cEnv : ChildEnv)
    (fuel : Nat) (name : String) (input_level : Rank) (levels : List Rank)
    (h : input_level ∉ levels) :
    ∀ row ∈ (process_plant tEnv cEnv fuel name input_level levels).1,
      dictGet row input_level "" = name ∧
      (row_fields input_level levels row).length = levels.length + 1 ∧
      (row_fields input_level levels row).head? = some name := by
  intro row hrow
  have hget := process_plant_input_field tEnv cEnv fuel name input_level
    levels h row hrow
  refine ⟨hget, by simp [row_fields], by simp [row_fields, hget]⟩

/-- Witness for C7: the resolved family record with genus requested, expanded
through the empty children service. -/
theorem claim_C7_witness :
    (Rank.family ∉ [Rank.genus]) ∧
    (∀ row ∈ (process_plant rosaceaeResp emptyChildEnv 10 "Rosaceae"
        Rank.family [Rank.genus]).1,
      dictGet row Rank.family "" = "Rosaceae" ∧
      (row_fields Rank.family [Rank.genus] row).length =
        ([Rank.genus] : List Rank).length + 1 ∧
      (row_fields Rank.family [Rank.genus] row).head? = some "Rosaceae") :=
  ⟨by decide,
    claim_C7_row_invariant rosaceaeResp emptyChildEnv 10 "Rosaceae"
      Rank.family [Rank.genus] (by decide)⟩

/-- C3: with fixed remote-service responses, pooled mode (modelled as the
lock-serialized per-name critical sections executing in the workers'
completion order, a permutation of the input names) and sequential mode
yield identical final success and failure counts and the same multiset of
output rows. -/
theorem claim_C3_pooled_eq_sequential (tEnv : MatchEnv) (cEnv : ChildEnv)
    (fuel : Nat) (input_level : Rank) (levels : List Rank)
    (plant_names completion_order : List String)
    (h : completion_order.Perm plant_names) :
    (process_plant_file_pooled tEnv cEnv fuel input_level levels
        completion_order).success_count =
      (process_plant_file_seq tEnv cEnv fuel input_level levels
        plant_names).success_count ∧
    (process_plant_file_pooled tEnv cEnv fuel input_level levels
        completion_order).failure_count =
      (process_plant_file_seq tEnv cEnv fuel input_level levels
        plant_names).failure_count ∧
    (process_plant_file_pooled tEnv cEnv fuel input_level levels
        completion_order).rows.Perm
      (process_plant_file_seq tEnv cEnv fuel input_level levels
        plant_names).rows := by
  unfold process_plant_file_pooled process_plant_file_seq
  rw [foldl_process_and_write, foldl_process_and_write]
  refine ⟨by simp [List.Perm.countP_eq _ h], by simp [List.Perm.countP_eq _ h],
    by simpa using
      List.Perm.flatMap_right (plant_rows tEnv cEnv fuel input_level levels) h⟩

/-- Witness for C3: two names in swapped completion order against the
no-match service. -/
theorem claim_C3_witness :
    (["b", "a"] : List String).Perm ["a", "b"] ∧
    ((process_plant_file_pooled (fun _ => noMatchResp) emptyChildEnv 10
        Rank.family [Rank.genus] ["b", "a"]).success_count =
      (process_plant_file_seq (fun _ => noMatchResp) emptyChildEnv 10
        Rank.family [Rank.genus] ["a", "b"]).success_count ∧
    (process_plant_file_pooled (fun _ => noMatchResp) emptyChildEnv 10
        Rank.family [Rank.genus] ["b", "a"]).failure_count =
      (process_plant_file_seq (fun _ => noMatchResp) emptyChildEnv 10
        Rank.family [Rank.genus] ["a", "b"]).failure_count ∧
    (process_plant_file_pooled (fun _ => noMatchResp) emptyChildEnv 10
        Rank.family [Rank.genus] ["b", "a"]).rows.Perm
      (process_plant_file_seq (fun _ => noMatchResp) emptyChildEnv 10
        Rank.family [Rank.genus] ["a", "b"]).rows) :=
  ⟨List.Perm.swap "a" "b" [],
    claim_C3_pooled_eq_sequential (fun _ => noMatchResp) emptyChildEnv 10
      Rank.family [Rank.genus] ["a", "b"] ["b", "a"]
      (List.Perm.swap "a" "b" [])⟩

/-- C4: with every page request succeeding, children enumeration requests
consecutive offsets 0, 1000, 2000, ... (advancing by the fixed page size)
until and only until the first page with strictly fewer than 1000 results,
accumulates each page's filtered results exactly once, and never requests
the same page twice. -/
theorem claim_C4_pagination (env : Nat → PageResp) (rank : Rank)
    (pages : Nat → List RawChild) (k fuel : Nat)
    (hp : ∀ j, j ≤ k → env (1000 * j) = .success (pages j))
    (hfull : ∀ j, j < k → ¬ (pages j).length < 1000)
    (hshort : (pages k).length < 1000)
    (hfuel : k + 1 ≤ fuel) :
    fetch_children env rank fuel =
      ((List.range (k + 1)).flatMap (fun j => filterPage rank (pages j)),
       (List.range (k + 1)).map (fun j => 1000 * j)) ∧
    ((List.range (k + 1)).map (fun j => 1000 * j)).Nodup := by
  constructor
  · unfold fetch_children
    rw [fetch_children_loop_full_pages env rank k pages 0 [] [] 0 fuel
      (by decide) (fun j hj => by simpa using hp j (by omega))
      hfull (by omega)]
    obtain ⟨f, hf⟩ : ∃ f, fuel - k = f + 1 := ⟨fuel - k - 1, by omega⟩
    rw [hf, fetch_children_loop_step_short env rank f _ _ _ 0 (pages k)
      (by simpa using hp k (by omega)) hshort]
    simp [List.range_succ, List.flatMap_append]
  · exact List.Nodup.map (fun a b hab => by omega) (List.nodup_range _)

/-- Witness for C4: a single short (empty) page terminates enumeration after
one request at offset 0. -/
theorem claim_C4_witness :
    (∀ j, j ≤ 0 → (fun _ => PageResp.success ([] : List RawChild)) (1000 * j) =
      .success (((fun _ => []) : Nat → List RawChild) j)) ∧
    ((((fun _ => []) : Nat → List RawChild) 0).length < 1000) ∧
    (fetch_children (fun _ => PageResp.success ([] : List RawChild))
        Rank.genus 1 =
      ((List.range (0 + 1)).flatMap
        (fun j => filterPage Rank.genus (((fun _ => []) : Nat → List RawChild) j)),
       (List.range (0 + 1)).map (fun j => 1000 * j)) ∧
    ((List.range (0 + 1)).map (fun j => 1000 * j)).Nodup) :=
  ⟨fun _ _ => rfl, by decide,
    claim_C4_pagination (fun _ => PageResp.success []) Rank.genus
      (fun _ => []) 0 1 (fun _ _ => rfl)
      (fun j hj => (Nat.not_lt_zero j hj).elim) (by decide) (by decide)⟩

/-- C8: when children enumeration exhausts its fixed retry limit on
transient failures, it returns exactly the list already accumulated from the
earlier successful pages (possibly empty) and never raises to its caller. -/
theorem claim_C8_exhausted_returns_accumulated (env : Nat → PageResp)
    (rank : Rank) (pages : Nat → List RawChild) (j fuel : Nat)
    (hp : ∀ m, m < j → env (1000 * m) = .success (pages m))
    (hfull : ∀ m, m < j → ¬ (pages m).length < 1000)
    (herr : (env (1000 * j)).isError = true)
    (hfuel : j + RETRY_LIMIT ≤ fuel) :
    (fetch_children env rank fuel).1 =
      (List.range j).flatMap (fun m => filterPage rank (pages m)) := by
  unfold fetch_children
  rw [fetch_children_loop_full_pages env rank j pages 0 [] [] 0 fuel
    (by decide) (fun m hm => by simpa using hp m hm) hfull (by omega)]
  exact (fetch_children_loop_all_err env rank (0 + 1000 * j)
    (by simpa using herr) RETRY_LIMIT 0
    ([] ++ (List.range j).flatMap (fun m => filterPage rank (pages m)))
    ([] ++ (List.range j).map (fun m => 0 + 1000 * m)) (fuel - j)
    (by omega) (by omega)).trans (by simp)

/-- Witness for C8: a service that always times out exhausts the retries on
page 0 and returns the empty accumulation. -/
theorem claim_C8_witness :
    (((fun _ => PageResp.timeout) (1000 * 0)).isError = true) ∧
    (0 + RETRY_LIMIT ≤ 5) ∧
    (fetch_children (fun _ => PageResp.timeout) Rank.genus 5).1 =
      (List.range 0).flatMap
        (fun m => filterPage Rank.genus (((fun _ => []) : Nat → List RawChild) m)) :=
  ⟨rfl, by decide,
    claim_C8_exhausted_returns_accumulated (fun _ => PageResp.timeout)
      Rank.genus (fun _ => []) 0 5
      (fun m hm => (Nat.not_lt_zero m hm).elim)
      (fun m hm => (Nat.not_lt_zero m hm).elim) rfl (by decide)⟩

end GbifFetch
